import Mathlib

/-
Verification of the SysPulse WebSocket SSH gateway (ssh-server.js) against
its natural-language specification.  The JavaScript source is shallowly
embedded: the command queue becomes an explicit transition system on a
queue-state record, the stateful handlers become pure functions from server
state to server state (plus a list of emitted events), and the JS Maps
become association lists over String keys.
-/

/-! ### Command queue data model (createCommandQueue, ssh-server.js:28-183)

A queued command object carries `{connection, command, callback, socket,
sessionId, socketId, background}`.  Only the fields the claims mention are
modelled; the callback and the socket are opaque at this level. -/

structure CmdEntry where
  sessionId : String
  command : String
  background : Bool
deriving DecidableEq

/-- The closure state of `createCommandQueue`: the pending `queue` array and
the `running` counter.  Two derived counters make the claims statable:
`active` counts commands whose exec channel was opened (slot taken at
`running++`, ssh-server.js:37) and whose completion callback has not fired
yet; `delayed` counts slot releases scheduled by `setTimeout(...,
delayBetweenCommands)` that have not run yet (ssh-server.js:123-126). -/
structure QueueState where
  pending : List CmdEntry
  running : Nat
  active : Nat
  delayed : Nat
deriving DecidableEq

/-- One invocation of `processQueue` (ssh-server.js:32-38): if the queue is
empty or `running >= maxConcurrent` it returns unchanged; otherwise it
increments `running` and shifts the head entry, which becomes active. -/
def dispatchStep (maxConcurrent : Nat) (s : QueueState) : QueueState :=
  match s.pending with
  | [] => s
  | _ :: rest =>
    if s.running < maxConcurrent then
      { s with pending := rest, running := s.running + 1, active := s.active + 1 }
    else s

def initQueue : QueueState := ⟨[], 0, 0, 0⟩

/-- The events that drive the queue, each ending in the `processQueue` call
the source makes at that point:
* `enqueue` — `add` pushes the entry and calls `processQueue`
  (ssh-server.js:167-170);
* `dispatch` — a bare `processQueue` call (the closure exposes it,
  ssh-server.js:172);
* `execFail` — `sshClient.exec` reports an error: `running--` and
  `processQueue()` run at once, before the callback (ssh-server.js:61-69);
* `finish` — the stream closes or errors, or the exec call throws: the
  callback fires and a delayed release is scheduled
  (ssh-server.js:97-163);
* `releaseSlot` — a scheduled `setTimeout` body runs: `running--` then
  `processQueue()` (ssh-server.js:123-126, 144-147, 159-162). -/
inductive QueueStep (m : Nat) : QueueState → QueueState → Prop
  | enqueue (e : CmdEntry) (s : QueueState) :
      QueueStep m s (dispatchStep m { s with pending := s.pending ++ [e] })
  | dispatch (s : QueueState) :
      QueueStep m s (dispatchStep m s)
  | execFail (s : QueueState) (h : 0 < s.active) :
      QueueStep m s (dispatchStep m { s with running := s.running - 1, active := s.active - 1 })
  | finish (s : QueueState) (h : 0 < s.active) :
      QueueStep m s { s with active := s.active - 1, delayed := s.delayed + 1 }
  | releaseSlot (s : QueueState) (h : 0 < s.delayed) :
      QueueStep m s (dispatchStep m { s with running := s.running - 1, delayed := s.delayed - 1 })

/-- The queue states reachable from the fresh queue. -/
def QueueReachable (m : Nat) : QueueState → Prop :=
  Relation.ReflTransGen (QueueStep m) initQueue

/-- The inductive invariant of the queue: every active command and every
scheduled release holds a slot counted in `running`, and `running` stays
under the cap. -/
def QueueInv (m : Nat) (s : QueueState) : Prop :=
  s.active + s.delayed ≤ s.running ∧ s.running ≤ m

/-! ### Per-entry completion traces (processQueue, ssh-server.js:57-163)

Once an entry holds a slot, exactly one of four completion paths runs.  Each
path is translated into the ordered list of externally visible actions the
handler performs, each tagged with the `setTimeout` delay (in ms) it is
scheduled under (0 = synchronous). -/

inductive QAction where
  | setBackgroundFlag (b : Bool)
  | invokeCallback (error : Option String) (output errorOutput : String) (background : Bool)
  | decRunning (delayMs : Nat)
  | redispatch (delayMs : Nat)
deriving DecidableEq

inductive CompletionPath where
  | execOpenFailure (msg : String)
  | streamClose (code : Int)
  | streamError (msg : String)
  | internalException (msg : String)
deriving DecidableEq

/-- The actions the source performs on each completion path, in program
order.  `execOpenFailure`: ssh-server.js:61-69 (`running--`, `processQueue()`,
then `callback({error, output: "", background})`).  `streamClose`:
ssh-server.js:97-127 (reset the background flag, invoke the callback with the
exit-code error and both outputs, then schedule `running--` and
`processQueue` after the inter-command delay).  `streamError`:
ssh-server.js:130-148.  `internalException`: ssh-server.js:150-163. -/
def completionTrace (delayBetween : Nat) (output errorOutput : String) (bg : Bool) :
    CompletionPath → List QAction
  | .execOpenFailure msg =>
      [.decRunning 0, .redispatch 0, .invokeCallback (some msg) "" "" bg]
  | .streamClose code =>
      [.setBackgroundFlag false,
       .invokeCallback (if code ≠ 0 then some s!"Command exited with code {code}" else none)
         output errorOutput bg,
       .decRunning delayBetween, .redispatch delayBetween]
  | .streamError msg =>
      [.invokeCallback (some s!"Stream error: {msg}") output errorOutput bg,
       .decRunning delayBetween, .redispatch delayBetween]
  | .internalException msg =>
      [.invokeCallback (some msg) "" "" bg,
       .decRunning delayBetween, .redispatch delayBetween]

def isCallbackAction : QAction → Bool
  | .invokeCallback _ _ _ _ => true
  | _ => false

def countCallbacks (tr : List QAction) : Nat := tr.countP isCallbackAction

/-! ### clearSessionCommands (ssh-server.js:174-176) -/

/-- `queue = queue.filter(item => item.sessionId !== sessionId)`. -/
def clearSessionCommands (sid : String) (q : List CmdEntry) : List CmdEntry :=
  q.filter (fun item => item.sessionId ≠ sid)

/-- The same operation seen on the whole queue state: only the pending array
is reassigned; the `running` slots (and the derived counters) are untouched. -/
def clearSessionState (sid : String) (s : QueueState) : QueueState :=
  { s with pending := clearSessionCommands sid s.pending }

/-! ### Session engine: registry and transport map (ssh-server.js:24-25,
189-255, 532-751, 1445-1501)

The bookkeeping the C4 invariant speaks about: which sessionIds are
registered (`sshConnections.set` fires only in the `ready` handler,
ssh-server.js:741), which transport binds to which session
(`socketToSession`), which sessions were created by `ssh-connect` but have
not authenticated yet, and which have been destroyed. -/

structure EngineState where
  registry : List String
  transportMap : List (String × String)
  pendingAuth : List String
  destroyed : List String
deriving DecidableEq

/-- `Map.set`: replace any binding of the key, then bind it. -/
def mapSet (k v : String) (m : List (String × String)) : List (String × String) :=
  (k, v) :: m.filter (fun p => p.1 ≠ k)

def initEngine : EngineState := ⟨[], [], [], []⟩

/-- The transitions of the session engine that touch the two maps:
* `connectReq` — the `ssh-connect` handler generates a fresh sessionId and
  runs `socketToSession.set(socket.id, sessionId)` at once
  (ssh-server.js:669-670); the session is only pending, `sshConnections.set`
  has not run yet;
* `ready` — the SSH ready handler registers the pending session
  (ssh-server.js:726-751);
* `bindExisting` — the reconnection handshake (ssh-server.js:536-607) or
  `ssh-check-connection` (ssh-server.js:610-631) binds a transport to a
  session that is already registered;
* `cleanup` — `cleanupConnection(socketId, sessionId)` deletes the caller's
  transport binding and, when present, the registry entry
  (ssh-server.js:189-255); stale bindings of other transports to the same
  session are not removed;
* `janitorEvict` — `cleanExpiredSessions` (or the memory-pressure pass,
  which has the same effect on these two maps) deletes a session and every
  transport binding to it (ssh-server.js:1445-1501). -/
inductive EngineStep : EngineState → EngineState → Prop
  | connectReq (sock sid : String) (st : EngineState) :
      EngineStep st { st with
        transportMap := mapSet sock sid st.transportMap,
        pendingAuth := sid :: st.pendingAuth }
  | ready (sid : String) (st : EngineState) (h : sid ∈ st.pendingAuth) :
      EngineStep st { st with
        pendingAuth := st.pendingAuth.erase sid,
        registry := sid :: st.registry }
  | bindExisting (sock sid : String) (st : EngineState) (h : sid ∈ st.registry) :
      EngineStep st { st with transportMap := mapSet sock sid st.transportMap }
  | cleanup (sock sid : String) (st : EngineState) :
      EngineStep st
        { registry := st.registry.erase sid,
          transportMap := st.transportMap.filter (fun p => p.1 ≠ sock),
          pendingAuth := st.pendingAuth.erase sid,
          destroyed := sid :: st.destroyed }
  | janitorEvict (sid : String) (st : EngineState) (h : sid ∈ st.registry) :
      EngineStep st { st with
        registry := st.registry.erase sid,
        transportMap := st.transportMap.filter (fun p => p.2 ≠ sid),
        destroyed := sid :: st.destroyed }

def EngineReachable : EngineState → Prop :=
  Relation.ReflTransGen EngineStep initEngine

/-- The state the engine is in right after an `ssh-connect` request bound
transport t1 to the fresh session A and before the SSH ready event. -/
def connectWindowState : EngineState :=
  { registry := [], transportMap := [("t1", "A")], pendingAuth := ["A"], destroyed := [] }

/-! ### Server state for the event handlers (ssh-server.js:24-25, 189-255,
503-529, 1210-1245, 1376-1387, 1445-1501)

`Connection` keeps the fields of the connection object (ssh-server.js:676-691)
the claims mention; timers are booleans (armed or not), and the stream and
client are booleans recording whether they are still alive. -/

structure Connection where
  lastActivity : Int
  cols : Int
  rows : Int
  authenticated : Bool
  hardAuthTimeout : Bool
  monitoringTimer : Bool
  highFreqMonitoringTimer : Bool
  streamAlive : Bool
  clientAlive : Bool
deriving DecidableEq

/-- The process-wide mutable state the handlers touch: the two Maps, the
command queue's pending array, and which sockets hold a live heartbeat
interval (ssh-server.js:503-529) or a live authentication watchdog interval
(ssh-server.js:940-975). -/
structure ServerState where
  sshConnections : List (String × Connection)
  socketToSession : List (String × String)
  queue : List CmdEntry
  heartbeats : List String
  watchdogs : List String
deriving DecidableEq

/-- `Map.get`: the binding of the first matching key, if any. -/
def lookupKey {β : Type} (k : String) : List (String × β) → Option β
  | [] => none
  | p :: rest => if p.1 = k then some p.2 else lookupKey k rest

/-! ### cleanupConnection (ssh-server.js:189-255) -/

/-- `cleanupConnection(socketId, sessionId)`: with a falsy sessionId, or a
sessionId absent from `sshConnections`, only the caller's
`socketToSession` entry is deleted (ssh-server.js:191-201).  Otherwise the
connection's timers are cleared and its stream and client destroyed (these
mutations die with the object), the session's pending commands are cleared
from the queue, and both map entries are deleted (ssh-server.js:203-254). -/
def cleanupConnection (sockId : String) (sessionId : Option String)
    (st : ServerState) : ServerState :=
  match sessionId with
  | none => { st with socketToSession := st.socketToSession.filter (fun p => p.1 ≠ sockId) }
  | some sid =>
    match lookupKey sid st.sshConnections with
    | none => { st with socketToSession := st.socketToSession.filter (fun p => p.1 ≠ sockId) }
    | some _ =>
      { st with
        sshConnections := st.sshConnections.filter (fun p => p.1 ≠ sid),
        socketToSession := st.socketToSession.filter (fun p => p.1 ≠ sockId),
        queue := st.queue.filter (fun e => e.sessionId ≠ sid) }

/-! ### Janitor: cleanExpiredSessions (ssh-server.js:1445-1501) -/

def SESSION_EXPIRY_MS : Int := 30 * 60 * 1000

/-- `now.getTime() - connection.lastActivity.getTime() > SESSION_EXPIRY_MS`. -/
def sessionExpired (now : Int) (c : Connection) : Bool :=
  decide (now - c.lastActivity > SESSION_EXPIRY_MS)

/-- What the janitor does to an expired connection before dropping it:
clear the monitoring timers, destroy the stream, end the client
(ssh-server.js:1466-1488). -/
def destroyConnectionResources (c : Connection) : Connection :=
  { c with
    monitoringTimer := false,
    highFreqMonitoringTimer := false,
    streamAlive := false,
    clientAlive := false }

/-- One janitor tick: every session whose inactivity exceeds the expiry is
destroyed and removed from `sshConnections`, and every `socketToSession`
entry mapping to it is deleted (ssh-server.js:1453-1500).  The second
component lists the destroyed sessions in their post-destruction state. -/
def cleanExpiredSessions (now : Int) (st : ServerState) :
    ServerState × List (String × Connection) :=
  ({ st with
      sshConnections := st.sshConnections.filter (fun p => !sessionExpired now p.2),
      socketToSession := st.socketToSession.filter (fun q =>
        !(st.sshConnections.any (fun p => p.1 == q.2 && sessionExpired now p.2))) },
   (st.sshConnections.filter (fun p => sessionExpired now p.2)).map
     (fun p => (p.1, destroyConnectionResources p.2)))

/-! ### Transport-level disconnect (ssh-server.js:1376-1387)

The handler body only clears the socket's heartbeat interval; the `once`
handlers registered earlier also clear that socket's authentication
watchdog if one is still armed (ssh-server.js:523-528, 969).  Nothing else
is touched: the session survives for the janitor or an explicit
`ssh-disconnect`. -/

def onTransportDisconnect (sock : String) (st : ServerState) : ServerState :=
  { st with
    heartbeats := st.heartbeats.filter (fun s => s ≠ sock),
    watchdogs := st.watchdogs.filter (fun s => s ≠ sock) }

/-! ### ssh-resize handler (ssh-server.js:1210-1245) -/

structure ResizePayload where
  cols : Option Int
  rows : Option Int
deriving DecidableEq

/-- The validation at ssh-server.js:1224: `!cols || !rows || cols <= 0 ||
rows <= 0` rejects a missing, zero, or negative dimension. -/
def validResize : ResizePayload → Bool
  | ⟨some c, some r⟩ => decide (0 < c) && decide (0 < r)
  | _ => false

inductive OutEvent where
  | sshError (msg : String)
  | setWindow (rows cols : Int)
deriving DecidableEq

/-- The accepted-resize mutation (ssh-server.js:1231-1241): store the new
dimensions; when the stream is alive, `setWindow` runs and `lastActivity`
is refreshed. -/
def applyResize (now : Int) (c r : Int) (conn : Connection) : Connection :=
  if conn.streamAlive then { conn with cols := c, rows := r, lastActivity := now }
  else { conn with cols := c, rows := r }

/-- The `ssh-resize` handler.  With no bound session, or a session missing
from the registry, it only logs a warning (no event, no state change,
ssh-server.js:1213-1218).  With an invalid payload it also only logs a
warning (ssh-server.js:1224-1229).  Otherwise it stores the dimensions and,
if the shell stream is alive, issues the window change. -/
def sshResizeHandler (now : Int) (sock : String) (p : ResizePayload)
    (st : ServerState) : ServerState × List OutEvent :=
  match lookupKey sock st.socketToSession with
  | none => (st, [])
  | some sid =>
    match lookupKey sid st.sshConnections with
    | none => (st, [])
    | some conn =>
      match p.cols, p.rows with
      | some c, some r =>
        if 0 < c ∧ 0 < r then
          ({ st with
              sshConnections := st.sshConnections.map
                (fun q => if q.1 = sid then (q.1, applyResize now c r q.2) else q) },
           if conn.streamAlive then [.setWindow r c] else [])
        else (st, [])
      | _, _ => (st, [])

/-! ### ssh-connect validation (ssh-server.js:634-670) -/

/-- Whether `needle` occurs as a contiguous substring of the character
list, as `String.prototype.includes` checks. -/
def subOccurs (needle : List Char) : List Char → Bool
  | [] => needle.isPrefixOf []
  | c :: rest => needle.isPrefixOf (c :: rest) || subOccurs needle rest

def strOccurs (needle hay : String) : Bool := subOccurs needle.data hay.data

/-- The whitespace characters relevant to the keys this gateway sees;
`String.prototype.trim` strips them from both ends. -/
def jsWhitespace (c : Char) : Bool :=
  c = ' ' ∨ c = '\t' ∨ c = '\n' ∨ c = '\r'

/-- `privateKey.trim()`. -/
def jsTrim (s : String) : String :=
  ⟨((s.data.dropWhile jsWhitespace).reverse.dropWhile jsWhitespace).reverse⟩

def replaceCRLF : List Char → List Char
  | [] => []
  | '\r' :: '\n' :: rest => '\n' :: replaceCRLF rest
  | c :: rest => c :: replaceCRLF rest

/-- `processedPrivateKey.replace(/\r\n/g, "\n")`. -/
def normalizeNewlines (s : String) : String := ⟨replaceCRLF s.data⟩

/-- The outcome of the validation prefix of the `ssh-connect` handler:
either an `ssh-error` event is emitted and the handler returns before any
session is created, or the handler proceeds to create a session with the
processed private key. -/
inductive ConnectOutcome where
  | errorEvent (msg : String)
  | proceed (processedKey : String)
deriving DecidableEq

/-- ssh-server.js:642-666: reject missing parameters; trim the key; reject
a key containing neither BEGIN nor END marker; normalize CRLF to LF. -/
def sshConnectValidate (host : String) (port : Nat) (username privateKey : String) :
    ConnectOutcome :=
  if host = "" ∨ port = 0 ∨ username = "" ∨ privateKey = "" then
    .errorEvent "Missing required connection parameters"
  else
    let processed := jsTrim privateKey
    if strOccurs "-----BEGIN" processed = false ∧ strOccurs "-----END" processed = false then
      .errorEvent "Invalid private key format - please use PEM format with BEGIN/END markers"
    else
      .proceed (normalizeNewlines processed)

/-! ### Concrete states used by counterexamples and witnesses -/

def idleConn : Connection :=
  { lastActivity := 0, cols := 80, rows := 24, authenticated := true,
    hardAuthTimeout := false, monitoringTimer := true,
    highFreqMonitoringTimer := false, streamAlive := true, clientAlive := true }

def oneSessionState : ServerState :=
  { sshConnections := [("A", idleConn)],
    socketToSession := [("t1", "A")],
    queue := [⟨"A", "uptime", true⟩],
    heartbeats := ["t1"],
    watchdogs := [] }

/-! ### Theorems -/

theorem dispatchStep_inv (m : Nat) (s : QueueState) (h : QueueInv m s) :
    QueueInv m (dispatchStep m s) := by
  obtain ⟨h1, h2⟩ := h
  unfold dispatchStep
  cases s.pending with
  | nil => exact ⟨h1, h2⟩
  | cons a rest =>
    by_cases hr : s.running < m
    · simpa [hr, QueueInv] using ⟨by omega, by omega⟩
    · simpa [hr] using ⟨h1, h2⟩

theorem queueStep_inv (m : Nat) (s t : QueueState) (hs : QueueStep m s t)
    (h : QueueInv m s) : QueueInv m t := by
  obtain ⟨h1, h2⟩ := h
  cases hs with
  | enqueue e s =>
    exact dispatchStep_inv m _ ⟨by simpa using h1, by simpa using h2⟩
  | dispatch s =>
    exact dispatchStep_inv m _ ⟨h1, h2⟩
  | execFail s h0 =>
    exact dispatchStep_inv m _ ⟨by simp; omega, by simp; omega⟩
  | finish s h0 =>
    exact ⟨by simp; omega, by simpa using h2⟩
  | releaseSlot s h0 =>
    exact dispatchStep_inv m _ ⟨by simp; omega, by simp; omega⟩

theorem queueReachable_inv (m : Nat) (s : QueueState) (h : QueueReachable m s) :
    QueueInv m s := by
  induction h with
  | refl => exact ⟨by simp [initQueue], by simp [initQueue]⟩
  | tail _ hstep ih => exact queueStep_inv m _ _ hstep ih

/-- Claim C1: for every sequence of enqueue, dispatch, and completion steps
of the command queue created with maxConcurrent = 3, the `running` counter
and the number of commands started but not yet completed (`active`) never
exceed 3. -/
theorem C1_queue_cap (s : QueueState) (h : QueueReachable 3 s) :
    s.running ≤ 3 ∧ s.active ≤ 3 := by
  obtain ⟨h1, h2⟩ := queueReachable_inv 3 s h
  exact ⟨h2, by omega⟩

theorem C1_queue_cap_witness :
    (dispatchStep 3 { initQueue with pending := [⟨"s1", "uname -a", true⟩] }).running ≤ 3 ∧
    (dispatchStep 3 { initQueue with pending := [⟨"s1", "uname -a", true⟩] }).active ≤ 3 :=
  C1_queue_cap _ (Relation.ReflTransGen.single (QueueStep.enqueue ⟨"s1", "uname -a", true⟩ initQueue))

/-- Claim C2: on every completion path of a dispatched entry (exec-open
failure, stream close, stream error, internal exception) the entry's
callback is invoked exactly once: never zero times and never twice. -/
theorem C2_callback_exactly_once (delayBetween : Nat) (output errorOutput : String)
    (bg : Bool) (p : CompletionPath) :
    countCallbacks (completionTrace delayBetween output errorOutput bg p) = 1 := by
  cases p <;> rfl

/-- Claim C3 is false as stated: on the exec-open-failure path the source
decrements `running` synchronously (delay 0) and never schedules the
decrement under the 300 ms inter-command delay. -/
theorem C3_counterexample :
    QAction.decRunning 0 ∈ completionTrace 300 "" "" false (.execOpenFailure "boom") ∧
    QAction.decRunning 300 ∉ completionTrace 300 "" "" false (.execOpenFailure "boom") := by
  constructor
  · simp [completionTrace]
  · simp [completionTrace]

/-- Claim C3 amended: when opening the SSH exec channel fails, the queue
decrements `running` immediately (with no inter-command delay), re-dispatches
the queue, and only then invokes the entry's callback with the error. -/
theorem C3_exec_failure_amended (delayBetween : Nat) (msg : String) (bg : Bool) :
    completionTrace delayBetween "" "" bg (.execOpenFailure msg) =
      [.decRunning 0, .redispatch 0, .invokeCallback (some msg) "" "" bg] := rfl

theorem count_clearSessionCommands (sid : String) (e : CmdEntry) (q : List CmdEntry)
    (he : e.sessionId ≠ sid) : (clearSessionCommands sid q).count e = q.count e := by
  unfold clearSessionCommands
  induction q with
  | nil => rfl
  | cons a rest ih =>
    by_cases ha : a.sessionId = sid
    · have hne : a ≠ e := fun hc => he (hc ▸ ha)
      rw [List.filter_cons_of_neg (by simpa using ha), ih,
        List.count_cons_of_ne (fun hc => hne hc.symm)]
    · rw [List.filter_cons_of_pos (by simpa using ha), List.count_cons, List.count_cons, ih]

/-- Claim C5: `clearSessionCommands s` removes exactly the pending entries
whose sessionId is `s`: no survivor matches `s`, the survivors are a
subsequence of the original pending list (original relative order), every
entry not matching `s` keeps its multiplicity, and the running slots and
counters are untouched. -/
theorem C5_clear_session (sid : String) (s : QueueState) :
    (∀ e ∈ (clearSessionState sid s).pending, e.sessionId ≠ sid) ∧
    (clearSessionState sid s).pending.Sublist s.pending ∧
    (∀ e : CmdEntry, e.sessionId ≠ sid →
      (clearSessionState sid s).pending.count e = s.pending.count e) ∧
    (clearSessionState sid s).running = s.running ∧
    (clearSessionState sid s).active = s.active ∧
    (clearSessionState sid s).delayed = s.delayed := by
  refine ⟨?_, ?_, ?_, rfl, rfl, rfl⟩
  · intro e he
    have := List.of_mem_filter he
    simpa using this
  · exact List.filter_sublist s.pending
  · intro e he
    exact count_clearSessionCommands sid e s.pending he

theorem engineStep_inv (s t : EngineState) (hs : EngineStep s t)
    (ih : ∀ p ∈ s.transportMap, p.2 ∈ s.registry ∨ p.2 ∈ s.pendingAuth ∨ p.2 ∈ s.destroyed) :
    ∀ p ∈ t.transportMap, p.2 ∈ t.registry ∨ p.2 ∈ t.pendingAuth ∨ p.2 ∈ t.destroyed := by
  cases hs with
  | connectReq sock sid st =>
    intro p hp
    rcases List.mem_cons.1 hp with h1 | h1
    · subst h1
      exact Or.inr (Or.inl (List.mem_cons_self _ _))
    · rcases ih p (List.mem_of_mem_filter h1) with h2 | h2 | h2
      · exact Or.inl h2
      · exact Or.inr (Or.inl (List.mem_cons_of_mem _ h2))
      · exact Or.inr (Or.inr h2)
  | ready sid st h =>
    intro p hp
    rcases ih p hp with h1 | h1 | h1
    · exact Or.inl (List.mem_cons_of_mem _ h1)
    · by_cases hps : p.2 = sid
      · exact Or.inl (hps ▸ List.mem_cons_self _ _)
      · exact Or.inr (Or.inl ((List.mem_erase_of_ne hps).2 h1))
    · exact Or.inr (Or.inr h1)
  | bindExisting sock sid st h =>
    intro p hp
    rcases List.mem_cons.1 hp with h1 | h1
    · subst h1
      exact Or.inl h
    · exact ih p (List.mem_of_mem_filter h1)
  | cleanup sock sid st =>
    intro p hp
    have hmem := List.mem_of_mem_filter hp
    by_cases hps : p.2 = sid
    · exact Or.inr (Or.inr (hps ▸ List.mem_cons_self _ _))
    · rcases ih p hmem with h1 | h1 | h1
      · exact Or.inl ((List.mem_erase_of_ne hps).2 h1)
      · exact Or.inr (Or.inl ((List.mem_erase_of_ne hps).2 h1))
      · exact Or.inr (Or.inr (List.mem_cons_of_mem _ h1))
  | janitorEvict sid st h =>
    intro p hp
    have hmem := List.mem_of_mem_filter hp
    by_cases hps : p.2 = sid
    · exact Or.inr (Or.inr (hps ▸ List.mem_cons_self _ _))
    · rcases ih p hmem with h1 | h1 | h1
      · exact Or.inl ((List.mem_erase_of_ne hps).2 h1)
      · exact Or.inr (Or.inl h1)
      · exact Or.inr (Or.inr (List.mem_cons_of_mem _ h1))

/-- Claim C4 is false as stated: one `ssh-connect` step from the empty
engine reaches a state where the transport map binds t1 to session A while
A is not in the session registry (it is registered only when the SSH ready
event fires). -/
theorem C4_counterexample :
    EngineReachable connectWindowState ∧
    ("t1", "A") ∈ connectWindowState.transportMap ∧
    "A" ∉ connectWindowState.registry := by
  refine ⟨Relation.ReflTransGen.single ?_, by simp [connectWindowState], by simp [connectWindowState]⟩
  exact EngineStep.connectReq "t1" "A" initEngine

/-- Claim C4 amended: in every reachable state of the session engine, every
`(transportId, sessionId)` entry of the transport map refers to a session
that is registered, or pending authentication (between a `connect` request
and the SSH ready event), or already destroyed (a stale binding left by
`cleanupConnection`, which removes only the calling transport's entry). -/
theorem C4_registry_invariant_amended (st : EngineState) (h : EngineReachable st) :
    ∀ p ∈ st.transportMap,
      p.2 ∈ st.registry ∨ p.2 ∈ st.pendingAuth ∨ p.2 ∈ st.destroyed := by
  induction h with
  | refl => intro p hp; cases hp
  | tail _ hstep ih => exact engineStep_inv _ _ hstep ih

theorem C4_registry_invariant_amended_witness :
    ("t1", "A").2 ∈ connectWindowState.registry ∨
    ("t1", "A").2 ∈ connectWindowState.pendingAuth ∨
    ("t1", "A").2 ∈ connectWindowState.destroyed :=
  C4_registry_invariant_amended connectWindowState
    (Relation.ReflTransGen.single (EngineStep.connectReq "t1" "A" initEngine))
    ("t1", "A") (by simp [connectWindowState])

theorem lookupKey_mem {β : Type} {k : String} {v : β} :
    ∀ {l : List (String × β)}, lookupKey k l = some v → (k, v) ∈ l := by
  intro l
  induction l with
  | nil => intro h; cases h
  | cons a rest ih =>
    obtain ⟨a1, a2⟩ := a
    intro h
    by_cases ha : a1 = k
    · subst ha
      rw [lookupKey, if_pos rfl] at h
      injection h with h2
      subst h2
      exact List.mem_cons_self _ _
    · rw [lookupKey, if_neg ha] at h
      exact List.mem_cons_of_mem _ (ih h)

theorem lookupKey_filter_pos {β : Type} (p : String × β → Bool) {k : String} {v : β} :
    ∀ {l : List (String × β)}, lookupKey k l = some v → p (k, v) = true →
      lookupKey k (l.filter p) = some v := by
  intro l
  induction l with
  | nil => intro h; cases h
  | cons a rest ih =>
    obtain ⟨a1, a2⟩ := a
    intro h hp
    by_cases ha : a1 = k
    · subst ha
      rw [lookupKey, if_pos rfl] at h
      injection h with h2
      subst h2
      rw [List.filter_cons_of_pos hp, lookupKey, if_pos rfl]
    · rw [lookupKey, if_neg ha] at h
      by_cases hpa : p (a1, a2) = true
      · rw [List.filter_cons_of_pos hpa, lookupKey, if_neg ha]
        exact ih h hp
      · rw [List.filter_cons_of_neg (by simpa using hpa)]
        exact ih h hp

theorem lookupKey_filter_none {β : Type} (p : String × β → Bool) {k : String} :
    ∀ {l : List (String × β)}, (∀ v, (k, v) ∈ l → p (k, v) = false) →
      lookupKey k (l.filter p) = none := by
  intro l
  induction l with
  | nil => intro _; rfl
  | cons a rest ih =>
    obtain ⟨a1, a2⟩ := a
    intro h
    have hrest : ∀ v, (k, v) ∈ rest → p (k, v) = false :=
      fun v hv => h v (List.mem_cons_of_mem _ hv)
    by_cases ha : a1 = k
    · subst ha
      have hfa := h a2 (List.mem_cons_self _ _)
      rw [List.filter_cons_of_neg (by simp [hfa])]
      exact ih hrest
    · by_cases hpa : p (a1, a2) = true
      · rw [List.filter_cons_of_pos hpa, lookupKey, if_neg ha]
        exact ih hrest
      · rw [List.filter_cons_of_neg (by simpa using hpa)]
        exact ih hrest

theorem lookupKey_unique {β : Type} {k : String} {v : β} :
    ∀ {l : List (String × β)}, (l.map Prod.fst).Nodup → lookupKey k l = some v →
      ∀ w, (k, w) ∈ l → w = v := by
  intro l
  induction l with
  | nil => intro _ _ w hw; cases hw
  | cons a rest ih =>
    obtain ⟨a1, a2⟩ := a
    intro hnd h w hw
    rw [List.map_cons] at hnd
    have hnotmem : a1 ∉ rest.map Prod.fst := (List.nodup_cons.1 hnd).1
    have hnd2 : (rest.map Prod.fst).Nodup := (List.nodup_cons.1 hnd).2
    by_cases ha : a1 = k
    · subst ha
      rw [lookupKey, if_pos rfl] at h
      injection h with h2
      subst h2
      rcases List.mem_cons.1 hw with h3 | h3
      · have := congrArg Prod.snd h3
        simpa using this
      · exact absurd (List.mem_map_of_mem Prod.fst h3) hnotmem
    · rw [lookupKey, if_neg ha] at h
      rcases List.mem_cons.1 hw with h3 | h3
      · exact absurd (by simpa using (congrArg Prod.fst h3).symm) ha
      · exact ih hnd2 h w h3

theorem lookupKey_filter_key {β : Type} (k : String) (l : List (String × β)) :
    lookupKey k (l.filter (fun p => p.1 ≠ k)) = none := by
  apply lookupKey_filter_none
  intro v _
  simp

theorem lookupKey_filter_key_beq {β : Type} (k : String) (l : List (String × β)) :
    lookupKey k (l.filter (fun p => !decide (p.1 = k))) = none := by
  apply lookupKey_filter_none
  intro v _
  simp

theorem filter_filter_self {α : Type} (p : α → Bool) (l : List α) :
    (l.filter p).filter p = l.filter p := by
  induction l with
  | nil => rfl
  | cons a t ih =>
    by_cases h : p a = true
    · rw [List.filter_cons_of_pos h, List.filter_cons_of_pos h, ih]
    · rw [List.filter_cons_of_neg (by simpa using h)]
      exact ih

/-- Claim C6: with all required parameters present, the `ssh-connect`
handler rejects the key — emitting an `ssh-error` whose message contains
"Invalid private key format", and creating no session — exactly when the
trimmed key contains neither "-----BEGIN" nor "-----END"; a key with at
least one marker passes this step and the handler proceeds with the
CRLF-normalized key. -/
theorem C6_key_validation (host username privateKey : String) (port : Nat)
    (hh : host ≠ "") (hp : port ≠ 0) (hu : username ≠ "") (hk : privateKey ≠ "") :
    ((∃ m, sshConnectValidate host port username privateKey = .errorEvent m ∧
        strOccurs "Invalid private key format" m = true) ↔
      (strOccurs "-----BEGIN" (jsTrim privateKey) = false ∧
       strOccurs "-----END" (jsTrim privateKey) = false)) ∧
    ((strOccurs "-----BEGIN" (jsTrim privateKey) = true ∨
      strOccurs "-----END" (jsTrim privateKey) = true) →
      sshConnectValidate host port username privateKey =
        .proceed (normalizeNewlines (jsTrim privateKey))) := by
  have hmiss : ¬(host = "" ∨ port = 0 ∨ username = "" ∨ privateKey = "") := by
    rintro (h | h | h | h)
    · exact hh h
    · exact hp h
    · exact hu h
    · exact hk h
  constructor
  · constructor
    · rintro ⟨m, hm, _⟩
      by_contra hcond
      rw [sshConnectValidate, if_neg hmiss, if_neg hcond] at hm
      cases hm
    · intro hcond
      refine ⟨"Invalid private key format - please use PEM format with BEGIN/END markers",
        ?_, by decide⟩
      rw [sshConnectValidate, if_neg hmiss, if_pos hcond]
  · intro hor
    have hcond : ¬(strOccurs "-----BEGIN" (jsTrim privateKey) = false ∧
        strOccurs "-----END" (jsTrim privateKey) = false) := by
      rintro ⟨h1, h2⟩
      rcases hor with h3 | h3
      · rw [h3] at h1; cases h1
      · rw [h3] at h2; cases h2
    rw [sshConnectValidate, if_neg hmiss, if_neg hcond]

theorem C6_key_validation_witness :
    ∃ m, sshConnectValidate "h" 22 "u" "not a key" = .errorEvent m ∧
      strOccurs "Invalid private key format" m = true :=
  ((C6_key_validation "h" "u" "not a key" 22 (by decide) (by decide) (by decide)
    (by decide)).1).mpr (by decide)

/-- Claim C7: at a janitor tick, every registered session whose
`lastActivity` lies more than 30 minutes in the past is destroyed
(monitoring timers cleared, stream and client destroyed) and removed from
the session registry and from every transport-map entry pointing at it;
a session within the 30-minute window keeps its registry entry and its
transport bindings untouched. -/
theorem C7_idle_eviction (now : Int) (st : ServerState) (sid : String) (c : Connection)
    (hnd : (st.sshConnections.map Prod.fst).Nodup)
    (hlk : lookupKey sid st.sshConnections = some c) :
    (sessionExpired now c = true →
      lookupKey sid (cleanExpiredSessions now st).1.sshConnections = none ∧
      (∀ q ∈ (cleanExpiredSessions now st).1.socketToSession, q.2 ≠ sid) ∧
      (sid, destroyConnectionResources c) ∈ (cleanExpiredSessions now st).2) ∧
    (sessionExpired now c = false →
      lookupKey sid (cleanExpiredSessions now st).1.sshConnections = some c ∧
      (∀ q ∈ st.socketToSession, q.2 = sid → q ∈ (cleanExpiredSessions now st).1.socketToSession)) := by
  constructor
  · intro hexp
    refine ⟨?_, ?_, ?_⟩
    · apply lookupKey_filter_none
      intro w hw
      have hwc : w = c := lookupKey_unique hnd hlk w hw
      subst hwc
      simp [hexp]
    · intro q hq hqs
      have hq2 := List.of_mem_filter hq
      have hany : st.sshConnections.any
          (fun p => p.1 == q.2 && sessionExpired now p.2) = true := by
        apply List.any_eq_true.2
        exact ⟨(sid, c), lookupKey_mem hlk, by simp [hqs, hexp]⟩
      rw [hany] at hq2
      cases hq2
    · have hmemf : (sid, c) ∈ st.sshConnections.filter (fun p => sessionExpired now p.2) :=
        List.mem_filter.2 ⟨lookupKey_mem hlk, hexp⟩
      exact List.mem_map_of_mem (fun p => (p.1, destroyConnectionResources p.2)) hmemf
  · intro hnexp
    refine ⟨?_, ?_⟩
    · exact lookupKey_filter_pos _ hlk (by simp [hnexp])
    · intro q hq hqs
      apply List.mem_filter.2
      refine ⟨hq, ?_⟩
      have hany : st.sshConnections.any
          (fun p => p.1 == q.2 && sessionExpired now p.2) = false := by
        apply List.any_eq_false.2
        intro p hpmem
        by_cases hpq : p.1 = q.2
        · have hpc : p.2 = c := by
            apply lookupKey_unique hnd hlk
            have h12 : p.1 = sid := by rw [← hqs]; exact hpq
            have hps : p = (sid, p.2) := Prod.ext h12 rfl
            rw [← hps]
            exact hpmem
          simp [hpc, hnexp]
        · simp [hpq]
      simp [hany]

theorem C7_idle_eviction_witness :
    lookupKey "A" (cleanExpiredSessions 1800001 oneSessionState).1.sshConnections = none ∧
    (∀ q ∈ (cleanExpiredSessions 1800001 oneSessionState).1.socketToSession, q.2 ≠ "A") ∧
    ("A", destroyConnectionResources idleConn) ∈ (cleanExpiredSessions 1800001 oneSessionState).2 :=
  (C7_idle_eviction 1800001 oneSessionState "A" idleConn (by decide) (by decide)).1 (by decide)

/-- Claim C8: a transport-level disconnect only stops the socket's
heartbeat timer (and, for a socket whose auth watchdog is already cleared,
nothing else): the session registry, the transport map, the command queue
and every other socket's heartbeat are untouched. -/
theorem C8_disconnect_frame (sock : String) (st : ServerState)
    (hw : sock ∉ st.watchdogs) :
    (onTransportDisconnect sock st).sshConnections = st.sshConnections ∧
    (onTransportDisconnect sock st).socketToSession = st.socketToSession ∧
    (onTransportDisconnect sock st).queue = st.queue ∧
    (onTransportDisconnect sock st).watchdogs = st.watchdogs ∧
    sock ∉ (onTransportDisconnect sock st).heartbeats ∧
    (∀ s2, s2 ≠ sock →
      (s2 ∈ (onTransportDisconnect sock st).heartbeats ↔ s2 ∈ st.heartbeats)) := by
  refine ⟨rfl, rfl, rfl, ?_, ?_, ?_⟩
  · apply List.filter_eq_self.2
    intro x hx
    have hxe : x ≠ sock := by
      intro hxs
      exact hw (hxs ▸ hx)
    simp [hxe]
  · intro hmem
    have := List.of_mem_filter hmem
    simp at this
  · intro s2 hs2
    constructor
    · exact fun h2 => List.mem_of_mem_filter h2
    · exact fun h2 => List.mem_filter.2 ⟨h2, by simpa using hs2⟩

theorem C8_disconnect_frame_witness :
    (onTransportDisconnect "t1" oneSessionState).sshConnections = oneSessionState.sshConnections ∧
    (onTransportDisconnect "t1" oneSessionState).socketToSession = oneSessionState.socketToSession ∧
    (onTransportDisconnect "t1" oneSessionState).queue = oneSessionState.queue ∧
    (onTransportDisconnect "t1" oneSessionState).watchdogs = oneSessionState.watchdogs ∧
    "t1" ∉ (onTransportDisconnect "t1" oneSessionState).heartbeats ∧
    (∀ s2, s2 ≠ "t1" →
      (s2 ∈ (onTransportDisconnect "t1" oneSessionState).heartbeats ↔
        s2 ∈ oneSessionState.heartbeats)) :=
  C8_disconnect_frame "t1" oneSessionState (by decide)

/-- Claim C9 is false as stated: a `resize` with cols = 0 against a live
session changes no state, but no client-visible error event is emitted
either — the handler only logs a warning and returns. -/
theorem C9_counterexample :
    validResize ⟨some 0, some 24⟩ = false ∧
    (sshResizeHandler 5 "t1" ⟨some 0, some 24⟩ oneSessionState).1 = oneSessionState ∧
    (∀ m, OutEvent.sshError m ∉ (sshResizeHandler 5 "t1" ⟨some 0, some 24⟩ oneSessionState).2) := by
  refine ⟨rfl, rfl, ?_⟩
  intro m hm
  have hev : (sshResizeHandler 5 "t1" ⟨some 0, some 24⟩ oneSessionState).2 = [] := rfl
  rw [hev] at hm
  cases hm

/-- Claim C9 amended: a `resize` whose payload fails validation (cols or
rows missing, zero, or negative) is dropped silently: the handler emits no
client-visible event and changes no state, so the stored dimensions keep
their previous values and no shell window change is issued. -/
theorem C9_resize_silent_amended (now : Int) (sock : String) (p : ResizePayload)
    (st : ServerState) (h : validResize p = false) :
    sshResizeHandler now sock p st = (st, []) := by
  obtain ⟨pc, pr⟩ := p
  cases h1 : lookupKey sock st.socketToSession with
  | none => simp [sshResizeHandler, h1]
  | some sid =>
    cases h2 : lookupKey sid st.sshConnections with
    | none => simp [sshResizeHandler, h1, h2]
    | some conn =>
      cases pc with
      | none => simp [sshResizeHandler, h1, h2]
      | some c =>
        cases pr with
        | none => simp [sshResizeHandler, h1, h2]
        | some r =>
          have hneg : ¬(0 < c ∧ 0 < r) := by
            rintro ⟨hc1, hr1⟩
            simp [validResize, hc1, hr1] at h
          simp [sshResizeHandler, h1, h2, hneg]

theorem C9_resize_silent_amended_witness :
    sshResizeHandler 0 "t1" ⟨none, some 40⟩ oneSessionState = (oneSessionState, []) :=
  C9_resize_silent_amended 0 "t1" ⟨none, some 40⟩ oneSessionState (by decide)

/-- Claim C10: `cleanupConnection` is idempotent: running it a second time
with the same socketId and sessionId finds the session gone, deletes only
the caller's (already absent) transport-map entry, and so changes nothing
at all — and after any run no transport-map entry for the caller's
socketId remains. -/
theorem C10_cleanup_idempotent (sockId : String) (sessionId : Option String)
    (st : ServerState) :
    cleanupConnection sockId sessionId (cleanupConnection sockId sessionId st) =
      cleanupConnection sockId sessionId st ∧
    (∀ p ∈ (cleanupConnection sockId sessionId st).socketToSession, p.1 ≠ sockId) := by
  constructor
  · cases sessionId with
    | none => simp [cleanupConnection, filter_filter_self]
    | some sid =>
      cases hl : lookupKey sid st.sshConnections with
      | none => simp [cleanupConnection, hl, filter_filter_self]
      | some c =>
        simp [cleanupConnection, hl, lookupKey_filter_key_beq, filter_filter_self]
  · intro q hq
    cases sessionId with
    | none =>
      simp only [cleanupConnection] at hq
      simpa using List.of_mem_filter hq
    | some sid =>
      cases hl : lookupKey sid st.sshConnections with
      | none =>
        simp only [cleanupConnection, hl] at hq
        simpa using List.of_mem_filter hq
      | some c =>
        simp only [cleanupConnection, hl] at hq
        simpa using List.of_mem_filter hq
